import Mathlib

/-!
# helm-tree: the `run` command of `rootcmd.go`

A shallow embedding of the parts of `rootcmd.go` that decide how a release's
manifest is turned into the roots of the rendered tree:

* the colour-mode step of `run` (lines 100–110),
* `SetPtrAsEnvvarIfNil` (lines 88–92),
* the manifest decoding loop of `run` (lines 168–183),
* the reconciliation loop of `run` (lines 193–221) with `setRealObject`
  (lines 227–235), and the single call of `treeView` (line 222).

Conventions.

* An `unstructured.Unstructured` value is represented by what its accessors
  `GetKind`, `GetNamespace`, `GetName` read, plus a `uid` standing for the rest
  of the object (so a live object and a declared document with the same
  identity remain distinguishable).
* Line 219 stores `&obj`, the address of the range variable of line 194. What
  that address reads as when `treeView` is called depends on the scope of the
  range variable, which the language version of the module decides and
  `rootcmd.go` does not fix: one variable per iteration (Go 1.22 and later) or
  one variable for the whole loop (Go 1.21 and earlier; the builtin `min` of
  line 131 needs 1.21). `reconcileLoopAt` and `runAt` take the scope as a
  parameter and keep roots as pointers; `reconcileLoop` and `run` are their
  reading with one variable per iteration, where every root is a value. The
  error, `color.NoColor` and the number of `treeView` calls and of roots are
  the same under both scopes.
* Calls into other packages and into files of this package other than
  `rootcmd.go` (flag lookup, client construction, discovery, helm, the cluster
  query, the catalog, the renderer) are inputs: their results are supplied by
  the caller of the model.
-/

namespace HelmTree

/-! ## Constants -/

/-- Constant `allNamespacesFlag` (line 41). -/
def allNamespacesFlag : String := "all-namespaces"

/-- Constant `colorFlag` (line 42). -/
def colorFlag : String := "color"

/-! ## Objects -/

/-- An `unstructured.Unstructured` with a non-nil `Object`: the three identity
fields read by `run` and `setRealObject`, and `uid` for everything else. -/
structure Unstructured where
  kind : String
  nspace : String
  name : String
  uid : String
deriving DecidableEq, Repr

/-- Accessor `GetKind`. -/
def Unstructured.GetKind (u : Unstructured) : String := u.kind

/-- Accessor `GetNamespace`. -/
def Unstructured.GetNamespace (u : Unstructured) : String := u.nspace

/-- Accessor `GetName`. -/
def Unstructured.GetName (u : Unstructured) : String := u.name

/-- Mutator `SetNamespace`: only the namespace changes. -/
def Unstructured.SetNamespace (u : Unstructured) (ns : String) : Unstructured :=
  Unstructured.mk u.kind ns u.name u.uid

/-! ## Catalog types (declared outside `rootcmd.go`) -/

/-- Modelled from the spec: `metav1.APIResource`, of which `run` reads
`Namespaced`; the fields are those of the spec's ResourceDescriptor
(`resourcePlural`, `kind`, `namespaced`). -/
structure APIResource where
  Name : String
  Namespaced : Bool
  Kind : String
deriving DecidableEq, Repr

/-- Modelled from the spec: the `group` and `version` of a ResourceDescriptor. -/
structure GroupVersion where
  Group : String
  Version : String
deriving DecidableEq, Repr

/-- Modelled from the spec: the descriptor type `apiResource`, whose declaration
is not in `rootcmd.go`; `run` reads `api.r.Namespaced`. -/
structure apiResource where
  r : APIResource
  gv : GroupVersion
deriving DecidableEq, Repr

/-- The catalog `apis` returned by `findAPIs`, seen through its only method
that `run` calls, `apis.lookup(kind)`. Its implementation is not in
`rootcmd.go`; every lookup function is allowed. -/
structure resourceMap where
  lookup : String → List apiResource

/-- Modelled from the spec: `fullAPIName`, the DisambiguationName of §4.1,
`resourcePlural.version.group`, or `resourcePlural.version` for the empty
(core) group. Its implementation is not in `rootcmd.go`. The model of `run`
takes the function as a parameter; this one is used for concrete inputs. -/
def DisambiguationName (a : apiResource) : String :=
  if a.gv.Group = "" then a.r.Name ++ "." ++ a.gv.Version
  else a.r.Name ++ "." ++ a.gv.Version ++ "." ++ a.gv.Group

/-! ## Errors -/

/-- The errors `run` returns. An error made by `run` itself is kept as its
format and arguments; `external` is an error handed back by a collaborator. -/
inductive RunError where
  /-- An error returned by a call outside `rootcmd.go`. -/
  | external (msg : String)
  /-- Line 109: `errors.Errorf("invalid value for --%s", colorFlag)`. -/
  | invalidValueFor (flag : String)
  /-- Line 199: `fmt.Errorf("could not find api kind %q", kind)`. -/
  | couldNotFindAPIKind (kind : String)
  /-- Lines 205–206: `fmt.Errorf("ambiguous kind %q. use one of these as the
  KIND disambiguate: [%s]", kind, strings.Join(names, ", "))`. -/
  | ambiguousKind (kind : String) (names : List String)
deriving DecidableEq, Repr

/-- The message of an error; `quote` is the `%q` verb (`strconv.Quote`). -/
def RunError.Error (quote : String → String) : RunError → String
  | .external msg => msg
  | .invalidValueFor flag => "invalid value for --" ++ flag
  | .couldNotFindAPIKind kind => "could not find api kind " ++ quote kind
  | .ambiguousKind kind names =>
      "ambiguous kind " ++ quote kind
        ++ ". use one of these as the KIND disambiguate: ["
        ++ ", ".intercalate names ++ "]"

/-! ## `SetPtrAsEnvvarIfNil` (lines 88–92) -/

/-- A `*string`: `none` is `nil`, `some a` points at cell `a`. -/
abbrev StringPtr := Option Nat

/-- The string cells pointers point at. -/
abbrev Heap := Nat → String

/-- A run-time panic. -/
inductive Panic where
  /-- Dereference of a nil pointer. -/
  | nilDereference
deriving DecidableEq, Repr

/-- Read `*ptr`. -/
def load (ptr : StringPtr) (heap : Heap) : Except Panic String :=
  match ptr with
  | none => .error .nilDereference
  | some a => .ok (heap a)

/-- Assignment `*ptr = v`. -/
def store (ptr : StringPtr) (v : String) (heap : Heap) : Except Panic Heap :=
  match ptr with
  | none => .error .nilDereference
  | some a => .ok (fun b => if b = a then v else heap b)

/-- The function `SetPtrAsEnvvarIfNil(ptr, env)`; `getenv` is `os.Getenv`.
The condition `ptr == nil || *ptr == ""` short-circuits: `*ptr` is read only
when `ptr` is not nil. The body `*ptr = os.Getenv(env)` runs when the condition
holds. -/
def SetPtrAsEnvvarIfNil (getenv : String → String) (ptr : StringPtr) (env : String)
    (heap : Heap) : Except Panic Heap :=
  let cond : Except Panic Bool :=
    if ptr = none then .ok true
    else (load ptr heap).map (fun s => decide (s = ""))
  match cond with
  | .error p => .error p
  | .ok true => store ptr (getenv env) heap
  | .ok false => .ok heap

/-! ## The colour-mode step of `run` (lines 100–110) -/

/-- Lines 104–110, given the flag value `colorArg` and the value of the global
`color.NoColor` on entry: the new value of `color.NoColor`, or the error. -/
def colorMode (colorArg : String) (NoColor : Bool) : Except RunError Bool :=
  if colorArg = "always" then .ok false
  else if colorArg = "never" then .ok true
  else if colorArg ≠ "auto" then .error (.invalidValueFor colorFlag)
  else .ok NoColor

/-! ## The manifest decoding loop of `run` (lines 168–183) -/

/-- What one call `decoder.Decode(&obj)` yields before end of input. -/
inductive DecodeOutcome where
  /-- A document was decoded: `derr == nil` and `obj.Object != nil`. -/
  | object (obj : Unstructured)
  /-- An empty document: `derr == nil` and `obj.Object == nil`. -/
  | null
  /-- A decode error: `derr != nil` and `derr != io.EOF`. -/
  | failed (msg : String)
deriving DecidableEq, Repr

/-- The loop of lines 170–183 over a decoder that yields the listed outcomes
and then `io.EOF`; the second argument is `manifests` so far. -/
def decodeLoop : List DecodeOutcome → List Unstructured → List Unstructured
  | [], manifests => manifests
  | .failed _ :: rest, manifests => decodeLoop rest manifests
  | .null :: rest, manifests => decodeLoop rest manifests
  | .object obj :: rest, manifests => decodeLoop rest (manifests ++ [obj])

/-! ## Reconciliation (lines 193–221, 227–235) -/

/-- The function `setRealObject` (lines 227–235): `none` is the nil result. -/
def setRealObject (apiObjects : List Unstructured) (obj : Unstructured) :
    Option Unstructured :=
  match apiObjects with
  | [] => none
  | real :: rest =>
    if real.GetKind = obj.GetKind ∧ real.GetNamespace = obj.GetNamespace
        ∧ real.GetName = obj.GetName then
      some real
    else setRealObject rest obj

/-- Lines 195–213 of the loop body: the namespace defaulting of one document.
The three cases are `len(apiResults) == 0`, `len(apiResults) > 1`, and the
remaining one where `api := apiResults[0]`. -/
def resolveNamespace (fullAPIName : apiResource → String) (apis : resourceMap)
    (ns : String) (obj : Unstructured) : Except RunError Unstructured :=
  if obj.GetNamespace = "" then
    let kind := obj.GetKind
    match apis.lookup kind with
    | [] => .error (.couldNotFindAPIKind kind)
    | a :: b :: more => .error (.ambiguousKind kind ((a :: b :: more).map fullAPIName))
    | [api] =>
      if api.r.Namespaced = true ∧ obj.GetNamespace = "" then .ok (obj.SetNamespace ns)
      else .ok obj
  else .ok obj

/-- The loop of lines 194–221 over the remaining manifest documents, with one
range variable per iteration, so that `&obj` reads as the document of its
iteration; the last argument is `objs` so far. -/
def reconcileLoop (fullAPIName : apiResource → String) (apis : resourceMap)
    (ns : String) (apiObjects : List Unstructured) :
    List Unstructured → List Unstructured → Except RunError (List Unstructured)
  | [], objs => .ok objs
  | obj :: rest, objs =>
    match resolveNamespace fullAPIName apis ns obj with
    | .error err => .error err
    | .ok obj =>
      match setRealObject apiObjects obj with
      | some real => reconcileLoop fullAPIName apis ns apiObjects rest (objs ++ [real])
      | none => reconcileLoop fullAPIName apis ns apiObjects rest (objs ++ [obj])

/-! ## `run` (lines 94–225) -/

/-- What lines 112–167 obtain from the cluster and from helm when none of them
fails: the catalog (`findAPIs`), the namespace (`getNamespace`) and the outcomes
the YAML decoder yields on `release.Manifest`. -/
structure Setup where
  apis : resourceMap
  ns : String
  decoder : List DecodeOutcome

/-- The results of the calls `run` makes outside `rootcmd.go`; a failing call
gives the message of its error. The flag `allNs` of lines 95–98 only feeds the
query of line 186, whose result is given here. -/
structure External where
  /-- Line 100: `command.Flags().GetString(colorFlag)`. -/
  colorArg : Except String String
  /-- Lines 112–167: the first error among them, or what they obtain. -/
  setup : Except String Setup
  /-- Line 186: `getAllResources(dyn, apis.resources(), allNs)`. -/
  apiObjects : Except String (List Unstructured)

/-- One call `treeView(os.Stderr, objDir, objs)`; the directory is given by
the live objects it was built from (`newObjectDirectory(apiObjects)`). -/
structure TreeViewCall where
  apiObjects : List Unstructured
  objs : List Unstructured
deriving DecidableEq, Repr

/-- What `run` leaves behind: the returned error (`none` is nil), the global
`color.NoColor`, and the calls of `treeView` in the order they were made. -/
structure Outcome where
  err : Option RunError
  NoColor : Bool
  treeView : List TreeViewCall
deriving DecidableEq, Repr

/-- The function `run` with one range variable per iteration, with
`color.NoColor` on entry as last argument. -/
def run (fullAPIName : apiResource → String) (ext : External) (NoColor : Bool) : Outcome :=
  match ext.colorArg with
  | .error err => Outcome.mk (some (.external err)) NoColor []
  | .ok colorArg =>
    match colorMode colorArg NoColor with
    | .error err => Outcome.mk (some err) NoColor []
    | .ok NoColor =>
      match ext.setup with
      | .error err => Outcome.mk (some (.external err)) NoColor []
      | .ok s =>
        let manifests := decodeLoop s.decoder []
        match ext.apiObjects with
        | .error err =>
          Outcome.mk (some (.external ("error while querying api objects: " ++ err))) NoColor []
        | .ok apiObjects =>
          match reconcileLoop fullAPIName s.apis s.ns apiObjects manifests [] with
          | .error err => Outcome.mk (some err) NoColor []
          | .ok objs => Outcome.mk none NoColor [TreeViewCall.mk apiObjects objs]

/-! ## The scope of the range variable (lines 194, 219) -/

/-- The scope of the range variable `obj` of line 194. -/
inductive LoopVarScope where
  /-- A fresh variable in every iteration (Go 1.22 and later). -/
  | perIteration
  /-- One variable for the whole loop (Go 1.21 and earlier). -/
  | perLoop
deriving DecidableEq, Repr

/-- The cell that holds the range variable in iteration `i`. -/
def LoopVarScope.cell : LoopVarScope → Nat → Nat
  | .perIteration, i => i
  | .perLoop, _ => 0

/-- An entry of `objs []*unstructured.Unstructured`. -/
inductive ObjPtr where
  /-- The result of `setRealObject`: the address of its fresh copy
  (`real := real; return &real`, lines 230–231). -/
  | copy (real : Unstructured)
  /-- The address `&obj` of the range variable held in the given cell (line 219). -/
  | loopVar (cell : Nat)
deriving DecidableEq, Repr

/-- The contents of the cells that hold the range variable. -/
abbrev LoopVars := Nat → Unstructured

/-- The cells before the loop. -/
def zeroVars : LoopVars := fun _ => Unstructured.mk "" "" "" ""

/-- Assignment to the range variable held in `cell`. -/
def assign (vars : LoopVars) (cell : Nat) (v : Unstructured) : LoopVars :=
  fun c => if c = cell then v else vars c

/-- What an entry of `objs` points at. -/
def ObjPtr.deref (vars : LoopVars) : ObjPtr → Unstructured
  | .copy real => real
  | .loopVar cell => vars cell

/-- The loop of lines 194–221 under either scope of the range variable. The
arguments after the remaining documents are the iteration number, the contents
of the range variable cells and `objs` so far. In each iteration the range
variable receives the document and its namespace defaulting (lines 194–213);
line 217 appends the pointer `setRealObject` returned, line 219 the address of
the range variable. -/
def reconcileLoopAt (scope : LoopVarScope) (fullAPIName : apiResource → String)
    (apis : resourceMap) (ns : String) (apiObjects : List Unstructured) :
    List Unstructured → Nat → LoopVars → List ObjPtr →
      Except RunError (LoopVars × List ObjPtr)
  | [], _, vars, objs => .ok (vars, objs)
  | obj :: rest, i, vars, objs =>
    match resolveNamespace fullAPIName apis ns obj with
    | .error err => .error err
    | .ok obj =>
      match setRealObject apiObjects obj with
      | some real =>
        reconcileLoopAt scope fullAPIName apis ns apiObjects rest (i + 1)
          (assign vars (scope.cell i) obj) (objs ++ [.copy real])
      | none =>
        reconcileLoopAt scope fullAPIName apis ns apiObjects rest (i + 1)
          (assign vars (scope.cell i) obj) (objs ++ [.loopVar (scope.cell i)])

/-- The function `run` under either scope of the range variable, with
`color.NoColor` on entry as last argument. The call of `treeView` is recorded
with what the entries of `objs` point at when it is made. -/
def runAt (scope : LoopVarScope) (fullAPIName : apiResource → String) (ext : External)
    (NoColor : Bool) : Outcome :=
  match ext.colorArg with
  | .error err => Outcome.mk (some (.external err)) NoColor []
  | .ok colorArg =>
    match colorMode colorArg NoColor with
    | .error err => Outcome.mk (some err) NoColor []
    | .ok NoColor =>
      match ext.setup with
      | .error err => Outcome.mk (some (.external err)) NoColor []
      | .ok s =>
        let manifests := decodeLoop s.decoder []
        match ext.apiObjects with
        | .error err =>
          Outcome.mk (some (.external ("error while querying api objects: " ++ err))) NoColor []
        | .ok apiObjects =>
          match reconcileLoopAt scope fullAPIName s.apis s.ns apiObjects manifests 0
              zeroVars [] with
          | .error err => Outcome.mk (some err) NoColor []
          | .ok (vars, objs) =>
            Outcome.mk none NoColor [TreeViewCall.mk apiObjects (objs.map (ObjPtr.deref vars))]

/-- The error of a result, `none` when there is none. -/
def errorOf {ε α : Type} : Except ε α → Option ε
  | .error e => some e
  | .ok _ => none

/-! ## Concrete inputs -/

/-- The namespaced core resource `pods.v1`. -/
def podAPI : apiResource := ⟨⟨"pods", true, "Pod"⟩, ⟨"", "v1"⟩⟩

/-- The cluster-scoped core resource `namespaces.v1`. -/
def namespaceAPI : apiResource := ⟨⟨"namespaces", false, "Namespace"⟩, ⟨"", "v1"⟩⟩

/-- Kind `Foo` in group `g1`. -/
def fooG1 : apiResource := ⟨⟨"foos", true, "Foo"⟩, ⟨"g1", "v1"⟩⟩

/-- Kind `Foo` in group `g2`. -/
def fooG2 : apiResource := ⟨⟨"foos", true, "Foo"⟩, ⟨"g2", "v1"⟩⟩

/-- A catalog in which `Pod` and `Namespace` are unique, `Foo` is served by two
groups (returned `g2` first) and every other kind is unknown. -/
def sampleAPIs : resourceMap :=
  ⟨fun kind =>
    if kind = "Pod" then [podAPI]
    else if kind = "Namespace" then [namespaceAPI]
    else if kind = "Foo" then [fooG2, fooG1]
    else []⟩

/-- A declared pod without namespace. -/
def declaredPod : Unstructured := ⟨"Pod", "", "web-0", ""⟩

/-- A declared `Foo` without namespace. -/
def declaredFoo : Unstructured := ⟨"Foo", "", "x", ""⟩

/-- A declared object of a kind the catalog does not know, without namespace. -/
def declaredBar : Unstructured := ⟨"Bar", "", "y", ""⟩

/-- A declared object of an unknown kind that carries a namespace. -/
def declaredBarInNs : Unstructured := ⟨"Bar", "other", "y", ""⟩

/-- A declared cluster-scoped object. -/
def declaredNamespace : Unstructured := ⟨"Namespace", "", "demo", ""⟩

/-- The live pod `demo/web-0`. -/
def livePod : Unstructured := ⟨"Pod", "demo", "web-0", "uid-1"⟩

/-- A second live object with the identity of `livePod`. -/
def livePodDup : Unstructured := ⟨"Pod", "demo", "web-0", "uid-2"⟩

/-- Collaborator results with which `run` reaches its reconciliation loop:
flag value `colorArg`, namespace `demo`, the given decoder outcomes and live
objects. -/
def sampleExternal (colorArg : String) (decoder : List DecodeOutcome)
    (apiObjects : List Unstructured) : External :=
  ⟨.ok colorArg, .ok ⟨sampleAPIs, "demo", decoder⟩, .ok apiObjects⟩

/-- The decoded, non-null document of an outcome, if it is one. -/
def DecodeOutcome.toObject? : DecodeOutcome → Option Unstructured
  | .object obj => some obj
  | .null => none
  | .failed _ => none

/-- A live object has the kind, namespace and name of `obj`. -/
def sameIdentity (obj real : Unstructured) : Bool :=
  decide (real.GetKind = obj.GetKind ∧ real.GetNamespace = obj.GetNamespace
    ∧ real.GetName = obj.GetName)

/-- The root appended for a document after its namespace defaulting (lines
215–220): the live object `setRealObject` returns, or the document. -/
def rootFor (apiObjects : List Unstructured) (obj : Unstructured) : Unstructured :=
  (setRealObject apiObjects obj).getD obj

/-- The outcome of `run` once its collaborators succeeded and the colour flag
was accepted: decided by the reconciliation loop alone. -/
def finish (NoColor : Bool) (apiObjects : List Unstructured) :
    Except RunError (List Unstructured) → Outcome
  | .error err => Outcome.mk (some err) NoColor []
  | .ok objs => Outcome.mk none NoColor [TreeViewCall.mk apiObjects objs]

/-! ## Lemmas on the colour-mode step -/

theorem colorMode_always (nc : Bool) : colorMode "always" nc = .ok false := by
  simp [colorMode]

theorem colorMode_never (nc : Bool) : colorMode "never" nc = .ok true := by
  simp [colorMode]

theorem colorMode_auto (nc : Bool) : colorMode "auto" nc = .ok nc := by
  simp [colorMode]

theorem colorMode_invalid (c : String) (nc : Bool)
    (h : c ≠ "always" ∧ c ≠ "never" ∧ c ≠ "auto") :
    colorMode c nc = .error (.invalidValueFor colorFlag) := by
  simp [colorMode, h.1, h.2.1, h.2.2]

theorem colorMode_ok_of_valid (c : String) (nc : Bool)
    (h : c = "always" ∨ c = "never" ∨ c = "auto") :
    ∃ nc', colorMode c nc = .ok nc' := by
  rcases h with h | h | h <;> subst h
  · exact ⟨false, colorMode_always nc⟩
  · exact ⟨true, colorMode_never nc⟩
  · exact ⟨nc, colorMode_auto nc⟩

/-! ## Lemmas on the decoding loop -/

theorem decodeLoop_eq (outcomes : List DecodeOutcome) (manifests : List Unstructured) :
    decodeLoop outcomes manifests
      = manifests ++ outcomes.filterMap DecodeOutcome.toObject? := by
  induction outcomes generalizing manifests with
  | nil => simp [decodeLoop]
  | cons o rest ih =>
    cases o with
    | object obj => simp [decodeLoop, ih, DecodeOutcome.toObject?]
    | null => simp [decodeLoop, ih, DecodeOutcome.toObject?]
    | failed msg => simp [decodeLoop, ih, DecodeOutcome.toObject?]

/-! ## Lemmas on reconciliation -/

theorem setRealObject_eq_find (live : List Unstructured) (obj : Unstructured) :
    setRealObject live obj = live.find? (sameIdentity obj) := by
  induction live with
  | nil => rfl
  | cons r rest ih =>
    by_cases h : r.GetKind = obj.GetKind ∧ r.GetNamespace = obj.GetNamespace
        ∧ r.GetName = obj.GetName
    · have hs : sameIdentity obj r = true := by simp [sameIdentity, h]
      simp [setRealObject, h, List.find?, hs]
    · have hs : sameIdentity obj r = false := by simpa [sameIdentity] using h
      simp only [setRealObject, if_neg h, List.find?, hs, ih]

theorem reconcileLoop_cons_ok (f : apiResource → String) (apis : resourceMap) (ns : String)
    (live rest objs : List Unstructured) (obj d : Unstructured)
    (h : resolveNamespace f apis ns obj = .ok d) :
    reconcileLoop f apis ns live (obj :: rest) objs
      = reconcileLoop f apis ns live rest (objs ++ [rootFor live d]) := by
  simp only [reconcileLoop, h, rootFor]
  cases setRealObject live d <;> rfl

theorem reconcileLoop_cons_error (f : apiResource → String) (apis : resourceMap) (ns : String)
    (live rest objs : List Unstructured) (obj : Unstructured) (e : RunError)
    (h : resolveNamespace f apis ns obj = .error e) :
    reconcileLoop f apis ns live (obj :: rest) objs = .error e := by
  simp only [reconcileLoop, h]

theorem reconcileLoop_append_error (f : apiResource → String) (apis : resourceMap)
    (ns : String) (live pre post : List Unstructured) (d : Unstructured) (e : RunError)
    (hpre : ∀ p ∈ pre, ∃ p', resolveNamespace f apis ns p = .ok p')
    (hd : resolveNamespace f apis ns d = .error e) (objs : List Unstructured) :
    reconcileLoop f apis ns live (pre ++ d :: post) objs = .error e := by
  induction pre generalizing objs with
  | nil => exact reconcileLoop_cons_error f apis ns live post objs d e hd
  | cons p pre ih =>
    obtain ⟨p', hp⟩ := hpre p (List.mem_cons_self p pre)
    rw [List.cons_append, reconcileLoop_cons_ok f apis ns live _ objs p p' hp]
    exact ih (fun q hq => hpre q (List.mem_cons_of_mem p hq)) _

theorem reconcileLoop_ok (f : apiResource → String) (apis : resourceMap) (ns : String)
    (live docs : List Unstructured) (objs out : List Unstructured)
    (h : reconcileLoop f apis ns live docs objs = .ok out) :
    ∃ roots, out = objs ++ roots ∧
      List.Forall₂ (fun d o => ∃ d', resolveNamespace f apis ns d = .ok d'
        ∧ o = rootFor live d') docs roots := by
  induction docs generalizing objs with
  | nil =>
    refine ⟨[], ?_, List.Forall₂.nil⟩
    simp only [reconcileLoop, Except.ok.injEq] at h
    simp [h]
  | cons d docs ih =>
    cases hd : resolveNamespace f apis ns d with
    | error e =>
      rw [reconcileLoop_cons_error f apis ns live docs objs d e hd] at h
      cases h
    | ok d' =>
      rw [reconcileLoop_cons_ok f apis ns live docs objs d d' hd] at h
      obtain ⟨roots, hout, hall⟩ := ih _ h
      refine ⟨rootFor live d' :: roots, ?_, List.Forall₂.cons ⟨d', hd, rfl⟩ hall⟩
      simp [hout]

theorem reconcileLoop_error (f : apiResource → String) (apis : resourceMap) (ns : String)
    (live docs : List Unstructured) (objs : List Unstructured) (e : RunError)
    (h : reconcileLoop f apis ns live docs objs = .error e) :
    ∃ pre d post, docs = pre ++ d :: post
      ∧ (∀ p ∈ pre, ∃ p', resolveNamespace f apis ns p = .ok p')
      ∧ resolveNamespace f apis ns d = .error e := by
  induction docs generalizing objs with
  | nil => simp [reconcileLoop] at h
  | cons d docs ih =>
    cases hd : resolveNamespace f apis ns d with
    | error e' =>
      rw [reconcileLoop_cons_error f apis ns live docs objs d e' hd] at h
      cases h
      exact ⟨[], d, docs, rfl, by simp, hd⟩
    | ok d' =>
      rw [reconcileLoop_cons_ok f apis ns live docs objs d d' hd] at h
      obtain ⟨pre, x, post, hdocs, hpre, hx⟩ := ih _ h
      refine ⟨d :: pre, x, post, by simp [hdocs], ?_, hx⟩
      intro p hp
      rcases List.mem_cons.mp hp with hp | hp
      · exact ⟨d', hp ▸ hd⟩
      · exact hpre p hp

theorem reconcileLoop_mem_error (f : apiResource → String) (apis : resourceMap)
    (ns : String) (live docs : List Unstructured) (d : Unstructured) (e : RunError)
    (hmem : d ∈ docs) (hd : resolveNamespace f apis ns d = .error e)
    (objs : List Unstructured) :
    ∃ e', reconcileLoop f apis ns live docs objs = .error e' := by
  induction docs generalizing objs with
  | nil => cases hmem
  | cons x docs ih =>
    cases hx : resolveNamespace f apis ns x with
    | error e' => exact ⟨e', reconcileLoop_cons_error f apis ns live docs objs x e' hx⟩
    | ok x' =>
      rw [reconcileLoop_cons_ok f apis ns live docs objs x x' hx]
      rcases List.mem_cons.mp hmem with h | h
      · rw [h, hx] at hd
        cases hd
      · exact ih h _

/-! ## Lemmas on `run` -/

theorem run_eq_finish (f : apiResource → String) (ext : External) (nc nc' : Bool)
    (c : String) (s : Setup) (live : List Unstructured)
    (h1 : ext.colorArg = .ok c) (h2 : colorMode c nc = .ok nc')
    (h3 : ext.setup = .ok s) (h4 : ext.apiObjects = .ok live) :
    run f ext nc
      = finish nc' live (reconcileLoop f s.apis s.ns live (decodeLoop s.decoder []) []) := by
  simp only [run, h1, h2, h3, h4, finish]

theorem run_treeView_of_err (f : apiResource → String) (ext : External) (nc : Bool)
    (h : (run f ext nc).err ≠ none) : (run f ext nc).treeView = [] := by
  revert h
  unfold run
  split
  · intro _; rfl
  · split
    · intro _; rfl
    · split
      · intro _; rfl
      · simp only
        split
        · intro _; rfl
        · split
          · intro _; rfl
          · intro h; exact absurd rfl h

theorem run_ok_inv (f : apiResource → String) (ext : External) (nc : Bool)
    (h : (run f ext nc).err = none) :
    ∃ c nc' s live objs, ext.colorArg = .ok c ∧ colorMode c nc = .ok nc'
      ∧ ext.setup = .ok s ∧ ext.apiObjects = .ok live
      ∧ reconcileLoop f s.apis s.ns live (decodeLoop s.decoder []) [] = .ok objs
      ∧ run f ext nc = Outcome.mk none nc' [TreeViewCall.mk live objs] := by
  cases h1 : ext.colorArg with
  | error e => simp [run, h1] at h
  | ok c =>
    cases h2 : colorMode c nc with
    | error e => simp [run, h1, h2] at h
    | ok nc' =>
      cases h3 : ext.setup with
      | error e => simp [run, h1, h2, h3] at h
      | ok s =>
        cases h4 : ext.apiObjects with
        | error e => simp [run, h1, h2, h3, h4] at h
        | ok live =>
          rw [run_eq_finish f ext nc nc' c s live h1 h2 h3 h4] at h ⊢
          cases h5 : reconcileLoop f s.apis s.ns live (decodeLoop s.decoder []) [] with
          | error e => simp [h5, finish] at h
          | ok objs => exact ⟨c, nc', s, live, objs, rfl, h2, rfl, rfl, h5, rfl⟩

theorem resolveNamespace_of_namespace (f : apiResource → String) (apis : resourceMap)
    (ns : String) (obj : Unstructured) (h : obj.GetNamespace ≠ "") :
    resolveNamespace f apis ns obj = .ok obj := by
  simp [resolveNamespace, h]

theorem decodeLoop_objects (docs : List Unstructured) :
    decodeLoop (docs.map DecodeOutcome.object) [] = docs := by
  rw [decodeLoop_eq]
  induction docs with
  | nil => rfl
  | cons d docs ih => simpa [DecodeOutcome.toObject?] using ih

theorem setRealObject_eq_none_iff (live : List Unstructured) (obj : Unstructured) :
    setRealObject live obj = none ↔
      ∀ r ∈ live, ¬ (r.GetKind = obj.GetKind ∧ r.GetNamespace = obj.GetNamespace
        ∧ r.GetName = obj.GetName) := by
  rw [setRealObject_eq_find, List.find?_eq_none]
  simp [sameIdentity]

theorem setRealObject_some (live : List Unstructured) (obj real : Unstructured)
    (h : setRealObject live obj = some real) :
    real ∈ live ∧ real.GetKind = obj.GetKind ∧ real.GetNamespace = obj.GetNamespace
      ∧ real.GetName = obj.GetName := by
  rw [setRealObject_eq_find] at h
  have h1 := List.find?_some h
  have h2 := List.mem_of_find?_eq_some h
  simp only [sameIdentity, decide_eq_true_eq] at h1
  exact ⟨h2, h1⟩

theorem rootFor_identity (live : List Unstructured) (obj : Unstructured) :
    (rootFor live obj).GetKind = obj.GetKind
      ∧ (rootFor live obj).GetNamespace = obj.GetNamespace
      ∧ (rootFor live obj).GetName = obj.GetName := by
  unfold rootFor
  cases h : setRealObject live obj with
  | none => exact ⟨rfl, rfl, rfl⟩
  | some real => exact (setRealObject_some live obj real h).2

theorem reconcileLoop_ok_all (f : apiResource → String) (apis : resourceMap) (ns : String)
    (live docs : List Unstructured) (objs out : List Unstructured)
    (h : reconcileLoop f apis ns live docs objs = .ok out) :
    ∀ d ∈ docs, ∃ d', resolveNamespace f apis ns d = .ok d' := by
  intro d hd
  cases hr : resolveNamespace f apis ns d with
  | ok d' => exact ⟨d', rfl⟩
  | error e =>
    obtain ⟨e', he⟩ := reconcileLoop_mem_error f apis ns live docs d e hd hr objs
    rw [he] at h
    cases h

theorem reconcileLoop_ok_of_all (f : apiResource → String) (apis : resourceMap)
    (ns : String) (live docs : List Unstructured) (objs : List Unstructured)
    (h : ∀ d ∈ docs, ∃ d', resolveNamespace f apis ns d = .ok d') :
    ∃ out, reconcileLoop f apis ns live docs objs = .ok out := by
  cases hr : reconcileLoop f apis ns live docs objs with
  | ok out => exact ⟨out, rfl⟩
  | error e =>
    obtain ⟨pre, d, post, hdocs, -, hd⟩ := reconcileLoop_error f apis ns live docs objs e hr
    obtain ⟨d', hd'⟩ := h d (by rw [hdocs]; simp)
    rw [hd] at hd'
    cases hd'

/-! ## Lemmas on the scope of the range variable -/

theorem reconcileLoopAt_errorOf (scope : LoopVarScope) (f : apiResource → String)
    (apis : resourceMap) (ns : String) (live docs : List Unstructured) :
    ∀ (i : Nat) (vars : LoopVars) (ptrs : List ObjPtr) (objs : List Unstructured),
      errorOf (reconcileLoopAt scope f apis ns live docs i vars ptrs)
        = errorOf (reconcileLoop f apis ns live docs objs) := by
  induction docs with
  | nil => intro i vars ptrs objs; rfl
  | cons d docs ih =>
    intro i vars ptrs objs
    cases hd : resolveNamespace f apis ns d with
    | error e => simp only [reconcileLoopAt, reconcileLoop, hd, errorOf]
    | ok d' =>
      cases hs : setRealObject live d' with
      | none =>
        simp only [reconcileLoopAt, reconcileLoop, hd, hs]
        exact ih _ _ _ _
      | some real =>
        simp only [reconcileLoopAt, reconcileLoop, hd, hs]
        exact ih _ _ _ _

theorem reconcileLoopAt_length (scope : LoopVarScope) (f : apiResource → String)
    (apis : resourceMap) (ns : String) (live docs : List Unstructured) :
    ∀ (i : Nat) (vars vars' : LoopVars) (ptrs ptrs' : List ObjPtr),
      reconcileLoopAt scope f apis ns live docs i vars ptrs = .ok (vars', ptrs') →
      ptrs'.length = ptrs.length + docs.length := by
  induction docs with
  | nil =>
    intro i vars vars' ptrs ptrs' h
    simp only [reconcileLoopAt, Except.ok.injEq, Prod.mk.injEq] at h
    simp [h.2]
  | cons d docs ih =>
    intro i vars vars' ptrs ptrs' h
    cases hd : resolveNamespace f apis ns d with
    | error e => simp [reconcileLoopAt, hd] at h
    | ok d' =>
      cases hs : setRealObject live d' with
      | none =>
        simp only [reconcileLoopAt, hd, hs] at h
        have := ih _ _ _ _ _ h
        simp only [List.length_append, List.length_singleton, List.length_cons,
          List.length_nil] at this ⊢
        omega
      | some real =>
        simp only [reconcileLoopAt, hd, hs] at h
        have := ih _ _ _ _ _ h
        simp only [List.length_append, List.length_singleton, List.length_cons,
          List.length_nil] at this ⊢
        omega

theorem map_deref_assign (vars : LoopVars) (i : Nat) (v : Unstructured) (ptrs : List ObjPtr)
    (h : ∀ c, ObjPtr.loopVar c ∈ ptrs → c < i) :
    ptrs.map (ObjPtr.deref (assign vars i v)) = ptrs.map (ObjPtr.deref vars) := by
  apply List.map_congr_left
  intro p hp
  cases p with
  | copy real => rfl
  | loopVar c =>
    have hc : c ≠ i := Nat.ne_of_lt (h c hp)
    simp [ObjPtr.deref, assign, hc]

theorem reconcileLoopAt_perIteration (f : apiResource → String) (apis : resourceMap)
    (ns : String) (live docs : List Unstructured) :
    ∀ (i : Nat) (vars : LoopVars) (ptrs : List ObjPtr),
      (∀ c, ObjPtr.loopVar c ∈ ptrs → c < i) →
      (reconcileLoopAt .perIteration f apis ns live docs i vars ptrs).map
          (fun r => r.2.map (ObjPtr.deref r.1))
        = reconcileLoop f apis ns live docs (ptrs.map (ObjPtr.deref vars)) := by
  induction docs with
  | nil => intro i vars ptrs _; rfl
  | cons d docs ih =>
    intro i vars ptrs hlt
    cases hd : resolveNamespace f apis ns d with
    | error e => simp only [reconcileLoopAt, reconcileLoop, hd, Except.map]
    | ok d' =>
      cases hs : setRealObject live d' with
      | none =>
        simp only [reconcileLoopAt, reconcileLoop, hd, hs, LoopVarScope.cell]
        rw [ih (i + 1) (assign vars i d') (ptrs ++ [ObjPtr.loopVar i])]
        · rw [List.map_append, map_deref_assign vars i d' ptrs hlt]
          simp [ObjPtr.deref, assign]
        · intro c hc
          rcases List.mem_append.mp hc with hc | hc
          · exact Nat.lt_succ_of_lt (hlt c hc)
          · simp only [List.mem_singleton, ObjPtr.loopVar.injEq] at hc
            omega
      | some real =>
        simp only [reconcileLoopAt, reconcileLoop, hd, hs, LoopVarScope.cell]
        rw [ih (i + 1) (assign vars i d') (ptrs ++ [ObjPtr.copy real])]
        · rw [List.map_append, map_deref_assign vars i d' ptrs hlt]
          simp [ObjPtr.deref]
        · intro c hc
          rcases List.mem_append.mp hc with hc | hc
          · exact Nat.lt_succ_of_lt (hlt c hc)
          · simp at hc

/-- With one range variable per iteration `runAt` is `run`. -/
theorem runAt_perIteration (f : apiResource → String) (ext : External) (nc : Bool) :
    runAt .perIteration f ext nc = run f ext nc := by
  unfold runAt run
  cases ext.colorArg with
  | error e => rfl
  | ok c =>
    simp only
    cases colorMode c nc with
    | error e => rfl
    | ok nc' =>
      simp only
      cases ext.setup with
      | error e => rfl
      | ok s =>
        simp only
        cases ext.apiObjects with
        | error e => rfl
        | ok live =>
          simp only
          have h := reconcileLoopAt_perIteration f s.apis s.ns live (decodeLoop s.decoder [])
            0 zeroVars [] (by simp)
          simp only [List.map_nil] at h
          rw [← h]
          cases reconcileLoopAt .perIteration f s.apis s.ns live (decodeLoop s.decoder [])
            0 zeroVars [] with
          | error e => rfl
          | ok r => rfl

/-- The scope of the range variable changes neither `color.NoColor` nor the
error of `run`; an error leaves `treeView` uncalled, and without error
`treeView` was called once with one root per manifest document. -/
theorem runAt_frame (scope : LoopVarScope) (f : apiResource → String) (ext : External)
    (nc : Bool) :
    (runAt scope f ext nc).NoColor = (run f ext nc).NoColor
    ∧ (runAt scope f ext nc).err = (run f ext nc).err
    ∧ ((runAt scope f ext nc).err ≠ none → (runAt scope f ext nc).treeView = [])
    ∧ ((runAt scope f ext nc).err = none →
        ∃ s live roots, ext.setup = .ok s ∧ ext.apiObjects = .ok live
          ∧ roots.length = (decodeLoop s.decoder []).length
          ∧ (runAt scope f ext nc).treeView = [TreeViewCall.mk live roots]) := by
  cases h1 : ext.colorArg with
  | error e => simp [runAt, run, h1]
  | ok c =>
    cases h2 : colorMode c nc with
    | error e => simp [runAt, run, h1, h2]
    | ok nc' =>
      cases h3 : ext.setup with
      | error e => simp [runAt, run, h1, h2, h3]
      | ok s =>
        cases h4 : ext.apiObjects with
        | error e => simp [runAt, run, h1, h2, h3, h4]
        | ok live =>
          have hE := reconcileLoopAt_errorOf scope f s.apis s.ns live (decodeLoop s.decoder [])
            0 zeroVars [] []
          cases hA : reconcileLoopAt scope f s.apis s.ns live (decodeLoop s.decoder [])
            0 zeroVars [] with
          | error e =>
            cases hB : reconcileLoop f s.apis s.ns live (decodeLoop s.decoder []) [] with
            | error e' =>
              rw [hA, hB] at hE
              simp only [errorOf, Option.some.injEq] at hE
              simp [runAt, run, h1, h2, h3, h4, hA, hB, hE]
            | ok objs =>
              rw [hA, hB] at hE
              simp [errorOf] at hE
          | ok r =>
            obtain ⟨vars, ptrs⟩ := r
            cases hB : reconcileLoop f s.apis s.ns live (decodeLoop s.decoder []) [] with
            | error e' =>
              rw [hA, hB] at hE
              simp [errorOf] at hE
            | ok objs =>
              have hlen := reconcileLoopAt_length scope f s.apis s.ns live _ _ _ _ _ _ hA
              simp only [List.length_nil, Nat.zero_add] at hlen
              simp [runAt, run, h1, h2, h3, h4, hA, hB, hlen]

/-- With one range variable per iteration: when `run` returns no error,
`treeView` receives one root per manifest document, in document order; root i
is the first live object with the kind, namespace and name of document i after
its namespace defaulting, or that document when no live object matches.
`setRealObject` returns no object exactly when no live object has the kind,
namespace and name asked for. -/
theorem run_roots_perIteration (f : apiResource → String) (ext : External) (nc : Bool)
    (h : (run f ext nc).err = none) :
    (∃ s live objs, ext.setup = .ok s ∧ ext.apiObjects = .ok live
      ∧ (run f ext nc).treeView = [TreeViewCall.mk live objs]
      ∧ objs.length = (decodeLoop s.decoder []).length
      ∧ List.Forall₂
          (fun d o => ∃ d', resolveNamespace f s.apis s.ns d = .ok d'
            ∧ o = (live.find? (sameIdentity d')).getD d')
          (decodeLoop s.decoder []) objs)
    ∧ (∀ apiObjects obj, setRealObject apiObjects obj = none ↔
        ∀ r ∈ apiObjects, ¬ (r.GetKind = obj.GetKind ∧ r.GetNamespace = obj.GetNamespace
          ∧ r.GetName = obj.GetName))
    ∧ (∀ apiObjects obj, setRealObject apiObjects obj
        = apiObjects.find? (sameIdentity obj)) := by
  refine ⟨?_, setRealObject_eq_none_iff, setRealObject_eq_find⟩
  obtain ⟨c, nc', s, live, objs, -, -, h3, h4, h5, hrun⟩ := run_ok_inv f ext nc h
  obtain ⟨roots, hout, hall⟩ := reconcileLoop_ok f s.apis s.ns live _ [] objs h5
  simp only [List.nil_append] at hout
  subst hout
  refine ⟨s, live, objs, h3, h4, by rw [hrun], hall.length_eq.symm, ?_⟩
  refine hall.imp ?_
  rintro d o ⟨d', hd, ho⟩
  refine ⟨d', hd, ?_⟩
  rw [ho, rootFor, setRealObject_eq_find]

/-! ## The claims -/

/-- C8: the colour mode is tri-state. Given the flag value `c`, `run` returns
the error "invalid value for --color" exactly when `c` is none of "always",
"never", "auto"; "always" leaves `color.NoColor = false`, "never" leaves
`color.NoColor = true`, and "auto" leaves `color.NoColor` as it was on entry. -/
theorem run_color_tristate (f : apiResource → String) (ext : External) (nc : Bool)
    (c : String) (hc : ext.colorArg = .ok c) :
    ((run f ext nc).err = some (.invalidValueFor colorFlag)
        ↔ (c ≠ "always" ∧ c ≠ "never" ∧ c ≠ "auto"))
    ∧ (∀ q, RunError.Error q (.invalidValueFor colorFlag) = "invalid value for --color")
    ∧ (c = "always" → (run f ext nc).NoColor = false)
    ∧ (c = "never" → (run f ext nc).NoColor = true)
    ∧ (c = "auto" → (run f ext nc).NoColor = nc) := by
  have key : ∀ nc', colorMode c nc = .ok nc' →
      (run f ext nc).NoColor = nc' ∧ (run f ext nc).err ≠ some (.invalidValueFor colorFlag) := by
    intro nc' h2
    cases h3 : ext.setup with
    | error e => simp [run, hc, h2, h3]
    | ok s =>
      cases h4 : ext.apiObjects with
      | error e => simp [run, hc, h2, h3, h4]
      | ok live =>
        rw [run_eq_finish f ext nc nc' c s live hc h2 h3 h4]
        cases h5 : reconcileLoop f s.apis s.ns live (decodeLoop s.decoder []) [] with
        | ok objs => simp [finish]
        | error e =>
          obtain ⟨pre, d, post, -, -, hd⟩ :=
            reconcileLoop_error f s.apis s.ns live _ [] e h5
          refine ⟨rfl, ?_⟩
          simp only [finish, ne_eq, Option.some.injEq]
          intro he
          subst he
          unfold resolveNamespace at hd
          split at hd
          · simp only at hd
            split at hd
            · cases hd
            · cases hd
            · split at hd <;> cases hd
          · cases hd
  refine ⟨⟨?_, ?_⟩, ?_, ?_, ?_, ?_⟩
  · intro herr
    by_contra hne
    have hv : c = "always" ∨ c = "never" ∨ c = "auto" := by
      by_cases h1 : c = "always"
      · exact Or.inl h1
      · by_cases h2 : c = "never"
        · exact Or.inr (Or.inl h2)
        · by_cases h3 : c = "auto"
          · exact Or.inr (Or.inr h3)
          · exact absurd ⟨h1, h2, h3⟩ hne
    obtain ⟨nc', h2⟩ := colorMode_ok_of_valid c nc hv
    exact (key nc' h2).2 herr
  · intro hne
    simp [run, hc, colorMode_invalid c nc hne]
  · intro q
    rfl
  · intro h
    subst h
    exact (key false (colorMode_always nc)).1
  · intro h
    subst h
    exact (key true (colorMode_never nc)).1
  · intro h
    subst h
    exact (key nc (colorMode_auto nc)).1

/-- C8 (witness): the flag value "auto" with `color.NoColor = true` on entry,
and the flag value "Always", which is none of the three exact strings. -/
theorem run_color_tristate_witness :
    (sampleExternal "auto" [] []).colorArg = .ok "auto"
    ∧ (run DisambiguationName (sampleExternal "auto" [] []) true).NoColor = true
    ∧ (run DisambiguationName (sampleExternal "auto" [] []) true).err
        ≠ some (.invalidValueFor colorFlag)
    ∧ (run DisambiguationName (sampleExternal "Always" [] []) true).err
        = some (.invalidValueFor colorFlag) :=
  have h := run_color_tristate DisambiguationName (sampleExternal "auto" [] []) true
    "auto" rfl
  have h' := run_color_tristate DisambiguationName (sampleExternal "Always" [] []) true
    "Always" rfl
  ⟨rfl, h.2.2.2.2 rfl, fun he => (h.1.mp he).2.2 rfl,
    h'.1.mpr ⟨by decide, by decide, by decide⟩⟩

/-- C7: where the code leaves the documented behaviour. With `NO_COLOR` set
(`color.NoColor = true` on entry) and `--color=always`, the colour step of `run`
sets `color.NoColor = false`: the flag overrides the environment variable. -/
theorem run_always_overrides_no_color :
    colorMode "always" true = .ok false
    ∧ (run DisambiguationName (sampleExternal "always" [] []) true).NoColor = false := by
  constructor
  · exact colorMode_always true
  · decide

/-- C10: where the code leaves the claim. Called with a nil pointer,
`SetPtrAsEnvvarIfNil` takes the branch of its guard `ptr == nil` and then
assigns through the nil pointer: it panics for every environment and heap.
Called with a pointer that is not nil it completes. -/
theorem SetPtrAsEnvvarIfNil_nil_panics (getenv : String → String) (env : String)
    (heap : Heap) :
    SetPtrAsEnvvarIfNil getenv none env heap = .error .nilDereference
    ∧ ∀ a, ∃ heap', SetPtrAsEnvvarIfNil getenv (some a) env heap = .ok heap' := by
  refine ⟨rfl, ?_⟩
  intro a
  by_cases h : heap a = ""
  · exact ⟨fun b => if b = a then getenv env else heap b, by
      simp [SetPtrAsEnvvarIfNil, load, store, Except.map, h]⟩
  · exact ⟨heap, by simp [SetPtrAsEnvvarIfNil, load, Except.map, h]⟩

/-- C9: malformed documents are skipped and raise no error. The manifest list
built by the decoding loop of `run` is exactly the decoded non-null documents
of the decoder, in their order; the loop is a total function (it ends at end of
input and has no error result), and `run` behaves on a manifest as on the same
manifest without its null and undecodable documents. -/
theorem decodeLoop_skips_malformed (outcomes : List DecodeOutcome) :
    decodeLoop outcomes [] = outcomes.filterMap DecodeOutcome.toObject?
    ∧ (∀ obj, obj ∈ decodeLoop outcomes [] ↔ DecodeOutcome.object obj ∈ outcomes)
    ∧ (∀ (f : apiResource → String) (c : Except String String) (apis : resourceMap)
        (ns : String) (live : Except String (List Unstructured)) (nc : Bool),
        run f ⟨c, .ok ⟨apis, ns, outcomes⟩, live⟩ nc
          = run f ⟨c, .ok ⟨apis, ns,
              (outcomes.filterMap DecodeOutcome.toObject?).map DecodeOutcome.object⟩,
              live⟩ nc) := by
  have h := decodeLoop_eq outcomes []
  simp only [List.nil_append] at h
  refine ⟨h, ?_, ?_⟩
  · intro obj
    rw [h, List.mem_filterMap]
    constructor
    · rintro ⟨o, ho, hobj⟩
      cases o with
      | object x =>
        simp only [DecodeOutcome.toObject?, Option.some.injEq] at hobj
        exact hobj ▸ ho
      | null => simp [DecodeOutcome.toObject?] at hobj
      | failed msg => simp [DecodeOutcome.toObject?] at hobj
    · intro ho
      exact ⟨.object obj, ho, rfl⟩
  · intro f c apis ns live nc
    simp only [run, decodeLoop_objects, h]

/-- C4: a manifest document with an empty namespace whose kind has no catalog
entry makes `run` fail, whatever documents follow it and whatever the live
objects are; when the loop reaches the document (every document before it is
resolved) the error is "could not find api kind" naming the kind of that
document. -/
theorem run_unknown_kind (f : apiResource → String) (c : String) (nc : Bool) (s : Setup)
    (live pre post : List Unstructured) (d : Unstructured)
    (hc : c = "always" ∨ c = "never" ∨ c = "auto")
    (hm : decodeLoop s.decoder [] = pre ++ d :: post)
    (hns : d.GetNamespace = "")
    (hk : s.apis.lookup d.GetKind = []) :
    (run f ⟨.ok c, .ok s, .ok live⟩ nc).err ≠ none
    ∧ ((∀ p ∈ pre, ∃ p', resolveNamespace f s.apis s.ns p = .ok p') →
        (run f ⟨.ok c, .ok s, .ok live⟩ nc).err = some (.couldNotFindAPIKind d.GetKind))
    ∧ (∀ q, RunError.Error q (.couldNotFindAPIKind d.GetKind)
        = "could not find api kind " ++ q d.GetKind) := by
  obtain ⟨nc', h2⟩ := colorMode_ok_of_valid c nc hc
  have hd : resolveNamespace f s.apis s.ns d = .error (.couldNotFindAPIKind d.GetKind) := by
    simp [resolveNamespace, hns, hk]
  rw [run_eq_finish f ⟨.ok c, .ok s, .ok live⟩ nc nc' c s live rfl h2 rfl rfl, hm]
  refine ⟨?_, ?_, fun q => rfl⟩
  · obtain ⟨e', he⟩ := reconcileLoop_mem_error f s.apis s.ns live (pre ++ d :: post) d _
      (by simp) hd []
    simp [he, finish]
  · intro hpre
    rw [reconcileLoop_append_error f s.apis s.ns live pre post d _ hpre hd []]
    rfl

/-- C4 (witness): the unknown kind `Bar` after a resolved pod and before an
ambiguous `Foo`, with a live pod present. -/
theorem run_unknown_kind_witness :
    decodeLoop [.object declaredPod, .object declaredBar, .object declaredFoo] []
        = [declaredPod] ++ declaredBar :: [declaredFoo]
    ∧ declaredBar.GetNamespace = ""
    ∧ sampleAPIs.lookup declaredBar.GetKind = []
    ∧ (run DisambiguationName
        (sampleExternal "auto"
          [.object declaredPod, .object declaredBar, .object declaredFoo] [livePod])
        false).err = some (.couldNotFindAPIKind "Bar") :=
  ⟨rfl, rfl, rfl,
    (run_unknown_kind DisambiguationName "auto" false
      ⟨sampleAPIs, "demo", [.object declaredPod, .object declaredBar, .object declaredFoo]⟩
      [livePod] [declaredPod] [declaredFoo] declaredBar (Or.inr (Or.inr rfl)) rfl rfl rfl).2.1
      (fun p hp => by
        rw [List.mem_singleton] at hp
        subst hp
        exact ⟨declaredPod.SetNamespace "demo", rfl⟩)⟩

/-- C1 (counterexample): the catalog returns the two candidates of kind `Foo`
with group `g2` first; the error of `run` lists `foos.v1.g2` before
`foos.v1.g1`, which is not sorted. -/
theorem run_ambiguous_names_unsorted :
    (run DisambiguationName (sampleExternal "auto" [.object declaredFoo] []) false).err
        = some (.ambiguousKind "Foo" ["foos.v1.g2", "foos.v1.g1"])
    ∧ ¬ List.Sorted (fun a b : String => a ≤ b) ["foos.v1.g2", "foos.v1.g1"]
    ∧ (run DisambiguationName (sampleExternal "auto" [.object declaredFoo] []) false).err
        ≠ some (.ambiguousKind "Foo" ["foos.v1.g1", "foos.v1.g2"]) := by
  refine ⟨by decide, ?_, by decide⟩
  intro h
  have h1 : "foos.v1.g2" ≤ "foos.v1.g1" := List.rel_of_sorted_cons h "foos.v1.g1" (by simp)
  have h2 : "foos.v1.g1" < "foos.v1.g2" := by
    rw [String.lt_iff_toList_lt]
    decide
  exact absurd h2 (not_lt.mpr h1)

/-- C1 (amended): a manifest document with an empty namespace whose kind has
more than one catalog entry makes `run` fail; when the loop reaches the document
(every document before it is resolved) the error is the ambiguous-kind error
for that kind, and the names it lists are `fullAPIName` of every candidate, in
the order in which the lookup returned the candidates. -/
theorem run_ambiguous_kind (f : apiResource → String) (c : String) (nc : Bool) (s : Setup)
    (live pre post : List Unstructured) (d : Unstructured)
    (hc : c = "always" ∨ c = "never" ∨ c = "auto")
    (hm : decodeLoop s.decoder [] = pre ++ d :: post)
    (hns : d.GetNamespace = "")
    (hk : 1 < (s.apis.lookup d.GetKind).length) :
    (run f ⟨.ok c, .ok s, .ok live⟩ nc).err ≠ none
    ∧ ((∀ p ∈ pre, ∃ p', resolveNamespace f s.apis s.ns p = .ok p') →
        (run f ⟨.ok c, .ok s, .ok live⟩ nc).err
          = some (.ambiguousKind d.GetKind ((s.apis.lookup d.GetKind).map f)))
    ∧ (∀ q, RunError.Error q (.ambiguousKind d.GetKind ((s.apis.lookup d.GetKind).map f))
        = "ambiguous kind " ++ q d.GetKind
          ++ ". use one of these as the KIND disambiguate: ["
          ++ ", ".intercalate ((s.apis.lookup d.GetKind).map f) ++ "]") := by
  obtain ⟨nc', h2⟩ := colorMode_ok_of_valid c nc hc
  have hd : resolveNamespace f s.apis s.ns d
      = .error (.ambiguousKind d.GetKind ((s.apis.lookup d.GetKind).map f)) := by
    cases hl : s.apis.lookup d.GetKind with
    | nil => simp [hl] at hk
    | cons a t =>
      cases t with
      | nil => simp [hl] at hk
      | cons b more => simp [resolveNamespace, hns, hl]
  rw [run_eq_finish f ⟨.ok c, .ok s, .ok live⟩ nc nc' c s live rfl h2 rfl rfl, hm]
  refine ⟨?_, ?_, fun q => rfl⟩
  · obtain ⟨e', he⟩ := reconcileLoop_mem_error f s.apis s.ns live (pre ++ d :: post) d _
      (by simp) hd []
    simp [he, finish]
  · intro hpre
    rw [reconcileLoop_append_error f s.apis s.ns live pre post d _ hpre hd []]
    rfl

/-- C1 (witness): the ambiguous kind `Foo` after a resolved pod. -/
theorem run_ambiguous_kind_witness :
    decodeLoop [.object declaredPod, .object declaredFoo, .object declaredBar] []
        = [declaredPod] ++ declaredFoo :: [declaredBar]
    ∧ declaredFoo.GetNamespace = ""
    ∧ 1 < (sampleAPIs.lookup declaredFoo.GetKind).length
    ∧ (run DisambiguationName
        (sampleExternal "auto"
          [.object declaredPod, .object declaredFoo, .object declaredBar] [livePod])
        false).err = some (.ambiguousKind "Foo" ["foos.v1.g2", "foos.v1.g1"]) :=
  ⟨rfl, rfl, by decide,
    (run_ambiguous_kind DisambiguationName "auto" false
      ⟨sampleAPIs, "demo", [.object declaredPod, .object declaredFoo, .object declaredBar]⟩
      [livePod] [declaredPod] [declaredBar] declaredFoo (Or.inr (Or.inr rfl)) rfl rfl
      (by decide)).2.1
      (fun p hp => by
        rw [List.mem_singleton] at hp
        subst hp
        exact ⟨declaredPod.SetNamespace "demo", rfl⟩)⟩

/-- C2: where the code leaves the claim. Line 219 appends `&obj`, the address of
the range variable, without the copy that `setRealObject` makes of its own
range variable (lines 230–231). With one range variable for the whole loop
(Go 1.21 and earlier) every root without a live match points at that variable
and reads as the last manifest document when `treeView` is called: for the
manifest `Pod web-0`, `Bar other/y`, `Namespace demo`, of which only the pod is
live, `treeView` receives the live pod and twice the `Namespace` document, so
the root of the second document is not that document. With one range variable
per iteration (Go 1.22 and later) the same input gives the roots of the claim. -/
theorem runAt_perLoop_roots_alias :
    runAt .perLoop DisambiguationName
        (sampleExternal "auto"
          [.object declaredPod, .object declaredBarInNs, .object declaredNamespace]
          [livePod, livePodDup]) true
      = Outcome.mk none true
          [⟨[livePod, livePodDup], [livePod, declaredNamespace, declaredNamespace]⟩]
    ∧ setRealObject [livePod, livePodDup] declaredBarInNs = none
    ∧ declaredNamespace ≠ declaredBarInNs
    ∧ runAt .perIteration DisambiguationName
        (sampleExternal "auto"
          [.object declaredPod, .object declaredBarInNs, .object declaredNamespace]
          [livePod, livePodDup]) true
      = Outcome.mk none true
          [⟨[livePod, livePodDup], [livePod, declaredBarInNs, declaredNamespace]⟩] := by
  refine ⟨by decide, by decide, by decide, by decide⟩

/-- C3: a manifest document with an empty namespace whose kind has exactly one
catalog entry is resolved without error; its namespace becomes the default
namespace `ns` when the entry is namespaced and stays empty when it is
cluster-scoped; kind and name are unchanged; the live lookup of the loop is
made with the document so resolved. -/
theorem resolveNamespace_single (f : apiResource → String) (apis : resourceMap)
    (ns : String) (obj : Unstructured) (api : apiResource)
    (hns : obj.GetNamespace = "") (hk : apis.lookup obj.GetKind = [api]) :
    ∃ d', resolveNamespace f apis ns obj = .ok d'
      ∧ (api.r.Namespaced = true → d'.GetNamespace = ns)
      ∧ (api.r.Namespaced = false → d'.GetNamespace = "")
      ∧ d'.GetKind = obj.GetKind ∧ d'.GetName = obj.GetName
      ∧ (∀ live rest objs, reconcileLoop f apis ns live (obj :: rest) objs
          = reconcileLoop f apis ns live rest
              (objs ++ [(setRealObject live d').getD d'])) := by
  cases hn : api.r.Namespaced with
  | true =>
    have hr : resolveNamespace f apis ns obj = .ok (obj.SetNamespace ns) := by
      simp [resolveNamespace, hns, hk, hn]
    refine ⟨obj.SetNamespace ns, hr, fun _ => rfl, fun h => (by cases h), rfl, rfl, ?_⟩
    intro live rest objs
    exact reconcileLoop_cons_ok f apis ns live rest objs obj _ hr
  | false =>
    have hr : resolveNamespace f apis ns obj = .ok obj := by
      simp [resolveNamespace, hns, hk, hn]
    refine ⟨obj, hr, fun h => (by cases h), fun _ => hns, rfl, rfl, ?_⟩
    intro live rest objs
    exact reconcileLoop_cons_ok f apis ns live rest objs obj _ hr

/-- C3 (witness): the pod `web-0` declared without namespace, default namespace
`demo`, `Pod` resolved to the one namespaced entry `pods.v1`. -/
theorem resolveNamespace_single_witness :
    declaredPod.GetNamespace = ""
    ∧ sampleAPIs.lookup declaredPod.GetKind = [podAPI]
    ∧ ∃ d', resolveNamespace DisambiguationName sampleAPIs "demo" declaredPod = .ok d'
      ∧ (podAPI.r.Namespaced = true → d'.GetNamespace = "demo")
      ∧ (podAPI.r.Namespaced = false → d'.GetNamespace = "")
      ∧ d'.GetKind = declaredPod.GetKind ∧ d'.GetName = declaredPod.GetName
      ∧ (∀ live rest objs,
          reconcileLoop DisambiguationName sampleAPIs "demo" live (declaredPod :: rest) objs
          = reconcileLoop DisambiguationName sampleAPIs "demo" live rest
              (objs ++ [(setRealObject live d').getD d'])) :=
  ⟨rfl, rfl,
    resolveNamespace_single DisambiguationName sampleAPIs "demo" declaredPod podAPI rfl rfl⟩

/-- C5: a manifest document that carries a non-empty namespace is resolved to
itself whatever the catalog holds (its kind may be unknown or ambiguous), the
loop goes on with its root, whose namespace is that of the document, and an
error of the loop is the error of another document, one with an empty
namespace. -/
theorem resolveNamespace_keeps_namespace (f : apiResource → String) (apis : resourceMap)
    (ns : String) (obj : Unstructured) (h : obj.GetNamespace ≠ "") :
    resolveNamespace f apis ns obj = .ok obj
    ∧ (∀ live rest objs, reconcileLoop f apis ns live (obj :: rest) objs
        = reconcileLoop f apis ns live rest (objs ++ [rootFor live obj]))
    ∧ (∀ live, (rootFor live obj).GetNamespace = obj.GetNamespace)
    ∧ (∀ live pre post objs e,
        reconcileLoop f apis ns live (pre ++ obj :: post) objs = .error e →
        ∃ d ∈ pre ++ post, d.GetNamespace = ""
          ∧ resolveNamespace f apis ns d = .error e) := by
  have hr := resolveNamespace_of_namespace f apis ns obj h
  refine ⟨hr, ?_, fun live => (rootFor_identity live obj).2.1, ?_⟩
  · intro live rest objs
    exact reconcileLoop_cons_ok f apis ns live rest objs obj obj hr
  · intro live pre post objs e he
    obtain ⟨pre', d, post', hdocs, -, hd⟩ := reconcileLoop_error f apis ns live _ objs e he
    have hmem : d ∈ pre ++ obj :: post := by
      rw [hdocs]
      simp
    have hne : d ≠ obj := by
      intro hEq
      rw [hEq, hr] at hd
      cases hd
    refine ⟨d, ?_, ?_, hd⟩
    · rcases List.mem_append.mp hmem with hm | hm
      · exact List.mem_append.mpr (Or.inl hm)
      · rcases List.mem_cons.mp hm with hm | hm
        · exact absurd hm hne
        · exact List.mem_append.mpr (Or.inr hm)
    · by_contra hns
      rw [resolveNamespace_of_namespace f apis ns d hns] at hd
      cases hd

/-- C5 (witness): kind `Bar` is unknown to the catalog, yet the document
declared in namespace `other` is resolved to itself. -/
theorem resolveNamespace_keeps_namespace_witness :
    declaredBarInNs.GetNamespace ≠ ""
    ∧ sampleAPIs.lookup declaredBarInNs.GetKind = []
    ∧ resolveNamespace DisambiguationName sampleAPIs "demo" declaredBarInNs
        = .ok declaredBarInNs :=
  ⟨by decide, rfl,
    (resolveNamespace_keeps_namespace DisambiguationName sampleAPIs "demo" declaredBarInNs
      (by decide)).1⟩

/-- C6: under either scope of the range variable `run` calls `treeView` at
most once. When `run` returns an error it has not called `treeView`; a manifest
document that cannot be resolved makes `run` return an error, so nothing is
rendered, also not for the documents before it. When `run` returns no error
every manifest document was resolved and `treeView` was called exactly once,
with one root per document. Conversely, when the collaborators succeed, the
colour flag is one of its three values and every manifest document is resolved,
`run` returns no error and has called `treeView` exactly once, with one root
per document. -/
theorem runAt_renders_once_after_resolving (scope : LoopVarScope)
    (f : apiResource → String) (ext : External) (nc : Bool) :
    ((runAt scope f ext nc).err ≠ none → (runAt scope f ext nc).treeView = [])
    ∧ (∀ s d e, ext.setup = .ok s → d ∈ decodeLoop s.decoder [] →
        resolveNamespace f s.apis s.ns d = .error e →
        (runAt scope f ext nc).err ≠ none ∧ (runAt scope f ext nc).treeView = [])
    ∧ ((runAt scope f ext nc).err = none →
        ∃ s live roots, ext.setup = .ok s ∧ ext.apiObjects = .ok live
          ∧ (∀ d ∈ decodeLoop s.decoder [], ∃ d', resolveNamespace f s.apis s.ns d = .ok d')
          ∧ roots.length = (decodeLoop s.decoder []).length
          ∧ (runAt scope f ext nc).treeView = [TreeViewCall.mk live roots])
    ∧ (∀ c s live, ext.colorArg = .ok c → (c = "always" ∨ c = "never" ∨ c = "auto") →
        ext.setup = .ok s → ext.apiObjects = .ok live →
        (∀ d ∈ decodeLoop s.decoder [], ∃ d', resolveNamespace f s.apis s.ns d = .ok d') →
        (runAt scope f ext nc).err = none
          ∧ ∃ roots, roots.length = (decodeLoop s.decoder []).length
            ∧ (runAt scope f ext nc).treeView = [TreeViewCall.mk live roots])
    ∧ (runAt scope f ext nc).treeView.length ≤ 1 := by
  obtain ⟨-, herr, hnil, hone⟩ := runAt_frame scope f ext nc
  have hok : (runAt scope f ext nc).err = none →
      ∃ s live roots, ext.setup = .ok s ∧ ext.apiObjects = .ok live
        ∧ (∀ d ∈ decodeLoop s.decoder [], ∃ d', resolveNamespace f s.apis s.ns d = .ok d')
        ∧ roots.length = (decodeLoop s.decoder []).length
        ∧ (runAt scope f ext nc).treeView = [TreeViewCall.mk live roots] := by
    intro h
    obtain ⟨s, live, roots, h3, h4, hlen, ht⟩ := hone h
    obtain ⟨c, nc', s', live', objs, -, -, h3', h4', h5, -⟩ :=
      run_ok_inv f ext nc (herr ▸ h)
    rw [h3] at h3'
    cases h3'
    rw [h4] at h4'
    cases h4'
    exact ⟨s, live, roots, h3, h4,
      reconcileLoop_ok_all f s.apis s.ns live _ [] objs h5, hlen, ht⟩
  refine ⟨hnil, ?_, hok, ?_, ?_⟩
  · intro s d e hs hd he
    have hne : (runAt scope f ext nc).err ≠ none := by
      intro h
      obtain ⟨s', live, roots, hs', -, hall, -, -⟩ := hok h
      rw [hs] at hs'
      cases hs'
      obtain ⟨d', hd'⟩ := hall d hd
      rw [he] at hd'
      cases hd'
    exact ⟨hne, hnil hne⟩
  · intro c s live h1 hc h3 h4 hall
    obtain ⟨nc', h2⟩ := colorMode_ok_of_valid c nc hc
    obtain ⟨objs, h5⟩ := reconcileLoop_ok_of_all f s.apis s.ns live _ [] hall
    have hrun : (runAt scope f ext nc).err = none := by
      rw [herr, run_eq_finish f ext nc nc' c s live h1 h2 h3 h4, h5]
      rfl
    obtain ⟨s', live', roots, h3', h4', hlen, ht⟩ := hone hrun
    rw [h3] at h3'
    cases h3'
    rw [h4] at h4'
    cases h4'
    exact ⟨hrun, roots, hlen, ht⟩
  · by_cases h : (runAt scope f ext nc).err = none
    · obtain ⟨s, live, roots, -, -, -, -, ht⟩ := hok h
      simp [ht]
    · simp [hnil h]

/-- C6 (witness): under either scope, a manifest whose second document is of
an unknown kind renders nothing, also not the first document, a pod with a
live counterpart; a manifest whose documents are all resolved is rendered by
exactly one call of `treeView`. -/
theorem runAt_renders_once_after_resolving_witness :
    (runAt .perLoop DisambiguationName
      (sampleExternal "auto" [.object declaredPod, .object declaredBar] [livePod])
      false).treeView = []
    ∧ (runAt .perIteration DisambiguationName
      (sampleExternal "auto" [.object declaredPod, .object declaredBar] [livePod])
      false).treeView = []
    ∧ (runAt .perLoop DisambiguationName
      (sampleExternal "auto" [.object declaredPod, .object declaredNamespace] [livePod])
      false).err = none
    ∧ (runAt .perLoop DisambiguationName
      (sampleExternal "auto" [.object declaredPod, .object declaredNamespace] [livePod])
      false).treeView.length = 1 :=
  have hall : ∀ d ∈ decodeLoop [.object declaredPod, .object declaredNamespace] [],
      ∃ d', resolveNamespace DisambiguationName sampleAPIs "demo" d = .ok d' := by
    intro d hd
    have hd' : d = declaredPod ∨ d = declaredNamespace := by
      simpa [decodeLoop] using hd
    rcases hd' with h | h
    · exact ⟨declaredPod.SetNamespace "demo", by rw [h]; rfl⟩
    · exact ⟨declaredNamespace, by rw [h]; rfl⟩
  have hgood := (runAt_renders_once_after_resolving .perLoop DisambiguationName
    (sampleExternal "auto" [.object declaredPod, .object declaredNamespace] [livePod])
    false).2.2.2.1 "auto" ⟨sampleAPIs, "demo", [.object declaredPod, .object declaredNamespace]⟩
    [livePod] rfl (Or.inr (Or.inr rfl)) rfl rfl hall
  ⟨(runAt_renders_once_after_resolving .perLoop DisambiguationName
      (sampleExternal "auto" [.object declaredPod, .object declaredBar] [livePod])
      false).1 (by decide),
    (runAt_renders_once_after_resolving .perIteration DisambiguationName
      (sampleExternal "auto" [.object declaredPod, .object declaredBar] [livePod])
      false).1 (by decide),
    hgood.1,
    by
      obtain ⟨roots, -, ht⟩ := hgood.2
      rw [ht]
      rfl⟩

end HelmTree
